import Mathlib

/-!
Shallow embedding of the singbox-manager core: the domain model
(src/types), the config compiler `toSingboxConfig` and the URI and
client-descriptor generators (src/core/config-generator), the roster
operations of `UserManager` (src/core/user-manager), and the HTTP reset
handler (src/server.ts). Randomness (UUIDs, Reality keypairs, short ids)
is modelled by explicit entropy parameters; timestamps by explicit `now`
parameters; file persistence by passing the `ManagerState` value
explicitly. All definitions are translated from the JavaScript and
TypeScript sources.
-/

set_option autoImplicit false

namespace Singbox

/-- Protocol tag of an inbound. -/
inductive Protocol where
| vless
| vmess
| trojan
| shadowsocks
| hysteria2
deriving DecidableEq, Repr

/-- TLS mode of an inbound; the source uses the string values tls, reality, none. -/
inductive TlsType where
| tls
| reality
| none
deriving DecidableEq, Repr

/-- Reality TLS-mimicry material for one inbound. -/
structure RealityConfig where
  dest : String
  serverNames : List String
  privateKey : String
  publicKey : String
  shortIds : List String
deriving DecidableEq, Repr

/-- One listening endpoint of the proxy. -/
structure InboundConfig where
  tag : String
  protocol : Protocol
  listen : String
  port : Nat
  tlsType : TlsType
  reality : Option RealityConfig
deriving DecidableEq, Repr

/-- DNS policy of the server. -/
structure DnsConfig where
  servers : List String
  useSystemDns : Bool
deriving DecidableEq, Repr

/-- Server identity and endpoints. -/
structure ServerConfig where
  host : String
  inbounds : List InboundConfig
  dns : Option DnsConfig
  logLevel : String
deriving DecidableEq, Repr

/-- A roster user; dates are modelled as integer timestamps. -/
structure User where
  id : String
  name : String
  email : Option String
  createdAt : Nat
  expiresAt : Option Nat
  enabled : Bool
  trafficLimit : Nat
  trafficUsed : Nat
deriving DecidableEq, Repr

/-- Flattened manual-entry map of a client descriptor. -/
structure ManualConfig where
  address : String
  port : Nat
  uuid : String
  flow : String
  security : String
  sni : String
  fingerprint : String
  publicKey : String
  shortId : String
deriving DecidableEq, Repr

/-- A derived client connection descriptor. -/
structure ClientConfig where
  userId : String
  protocol : Protocol
  uri : String
  manual : ManualConfig
deriving DecidableEq, Repr

/-- The persisted aggregate owned by the roster manager. -/
structure ManagerState where
  version : Nat
  server : ServerConfig
  users : List User
  clientConfigs : List ClientConfig
deriving DecidableEq, Repr

/-- A user entry of the native sing-box config. -/
structure SbUser where
  uuid : String
  name : String
  flow : String
deriving DecidableEq, Repr

/-- Reality handshake block of the native config. -/
structure SbHandshake where
  server : String
  server_port : Nat
deriving DecidableEq, Repr

/-- Reality sub-block of the native TLS block. -/
structure SbReality where
  enabled : Bool
  handshake : SbHandshake
  private_key : String
  short_id : List String
deriving DecidableEq, Repr

/-- TLS block of a native inbound. -/
structure SbTls where
  enabled : Bool
  server_name : String
  reality : SbReality
deriving DecidableEq, Repr

/-- One inbound of the native sing-box config. -/
structure SbInbound where
  type : Protocol
  tag : String
  listen : String
  listen_port : Nat
  users : List SbUser
  tls : Option SbTls
deriving DecidableEq, Repr

/-- One tagged DNS server entry of the native config. -/
structure SbDnsServer where
  tag : String
  address : String
deriving DecidableEq, Repr

/-- One outbound of the native config. -/
structure SbOutbound where
  type : String
  tag : String
deriving DecidableEq, Repr

/-- Log block of the native config. -/
structure SbLog where
  level : String
  timestamp : Bool
deriving DecidableEq, Repr

/-- The native sing-box configuration object. -/
structure SingboxConfig where
  log : SbLog
  dns : Option (List SbDnsServer)
  inbounds : List SbInbound
  outbounds : List SbOutbound
deriving DecidableEq, Repr

/-- The fixed flow value emitted for every VLESS user. -/
def visionFlow : String := "xtls-rprx-vision"

/-- Native user entry built from a roster user. -/
def toSbUser (u : User) : SbUser :=
  { uuid := u.id, name := u.name, flow := visionFlow }

/-- Per-inbound body of the compiler map in toSingboxConfig of
src/core/config-generator. In the source, serverNames[0] on an empty list
yields the JS undefined value, which stringifies to "undefined"; headD
models that. -/
def toSbInbound (users : List User) (inbound : InboundConfig) : SbInbound :=
  let base : SbInbound :=
    { type := inbound.protocol
      tag := inbound.tag
      listen := inbound.listen
      listen_port := inbound.port
      users := (users.filter (fun u => u.enabled)).map toSbUser
      tls := Option.none }
  match inbound.tlsType, inbound.reality with
  | TlsType.reality, Option.some r =>
      { base with
          tls := Option.some
            ({ enabled := true
               server_name := r.serverNames.headD "undefined"
               reality :=
                 { enabled := true
                   handshake := { server := r.dest, server_port := 443 }
                   private_key := r.privateKey
                   short_id := r.shortIds } } : SbTls) }
  | _, _ => base

/-- Config compiler: translate the domain model into the native sing-box
format, mirroring toSingboxConfig of src/core/config-generator. -/
def toSingboxConfig (serverConfig : ServerConfig) (users : List User) : SingboxConfig :=
  let inbounds := serverConfig.inbounds.map (toSbInbound users)
  { log := { level := serverConfig.logLevel, timestamp := true }
    dns := serverConfig.dns.map (fun d =>
      d.servers.enum.map (fun p => ({ tag := "dns-" ++ toString p.1, address := p.2 } : SbDnsServer)))
    inbounds := inbounds
    outbounds := [ { type := "direct", tag := "direct" },
                   { type := "block", tag := "block" } ] }

/-- Uppercase hex digit for a value below 16. -/
def hexDigit (n : Nat) : Char :=
  if n < 10 then Char.ofNat (48 + n) else Char.ofNat (55 + n)

/-- UTF-8 bytes of a character, as used by both percent encoders. -/
def utf8Bytes (c : Char) : List Nat :=
  let n := c.toNat
  if n < 128 then [n]
  else if n < 2048 then [192 + n / 64, 128 + n % 64]
  else if n < 65536 then [224 + n / 4096, 128 + n / 64 % 64, 128 + n % 64]
  else [240 + n / 262144, 128 + n / 4096 % 64, 128 + n / 64 % 64, 128 + n % 64]

/-- Percent escape of one byte, uppercase hex. -/
def percentByte (b : Nat) : String :=
  String.mk ['%', hexDigit (b / 16), hexDigit (b % 16)]

/-- Concatenate the encodings of each character. -/
def encodeChars (f : Char → String) : List Char → String
  | [] => ""
  | c :: cs => f c ++ encodeChars f cs

/-- Characters serialized verbatim by URLSearchParams
(application/x-www-form-urlencoded): ASCII alphanumerics and * - . _ . -/
def isFormUnreserved (c : Char) : Bool :=
  c.isAlphanum || c = '*' || c = '-' || c = '.' || c = '_'

/-- Encoding of one character under URLSearchParams serialization:
unreserved characters verbatim, space as +, the rest percent-escaped UTF-8. -/
def formEncodeChar (c : Char) : String :=
  if isFormUnreserved c then String.singleton c
  else if c = ' ' then "+"
  else String.join ((utf8Bytes c).map percentByte)

/-- URLSearchParams serialization of a single string. -/
def formEncode (s : String) : String :=
  encodeChars formEncodeChar s.data

/-- Characters left verbatim by the JS encodeURIComponent. -/
def isUriUnreserved (c : Char) : Bool :=
  c.isAlphanum || c = '-' || c = '_' || c = '.' || c = '!' || c = '~' ||
    c = '*' || c = Char.ofNat 39 || c = '(' || c = ')'

/-- Model of the JS encodeURIComponent: unreserved characters verbatim,
the rest percent-escaped UTF-8. -/
def encodeURIComponent (s : String) : String :=
  encodeChars (fun c =>
    if isUriUnreserved c then String.singleton c
    else String.join ((utf8Bytes c).map percentByte)) s.data

/-- Serialization of URLSearchParams.toString over an ordered pair list. -/
def serializePairs : List (String × String) → String
  | [] => ""
  | [p] => formEncode p.1 ++ "=" ++ formEncode p.2
  | p :: rest => formEncode p.1 ++ "=" ++ formEncode p.2 ++ "&" ++ serializePairs rest

/-- URI generator for one inbound, mirroring generateVlessUri of
src/core/config-generator. The source throws on any protocol or TLS
combination other than vless+reality; a reality block missing while
tlsType is reality crashes with a TypeError in the compiled JS, modelled
here as a distinct error value. The query parameters are built through
URLSearchParams in the fixed insertion order of the object literal. -/
def generateVlessUri (user : User) (serverConfig : ServerConfig)
    (inbound : InboundConfig) : Except String String :=
  if inbound.protocol ≠ Protocol.vless ∨ inbound.tlsType ≠ TlsType.reality then
    Except.error "Only VLESS+Reality is supported"
  else
    match inbound.reality with
    | Option.none => Except.error "TypeError: reality is undefined"
    | Option.some reality =>
        Except.ok ("vless://" ++ user.id ++ "@" ++ serverConfig.host ++ ":" ++
          toString inbound.port ++ "?" ++
          serializePairs
            [("type", "tcp"),
             ("security", "reality"),
             ("pbk", reality.publicKey),
             ("fp", "chrome"),
             ("sni", reality.serverNames.headD "undefined"),
             ("sid", reality.shortIds.headD "undefined"),
             ("flow", visionFlow)] ++
          "#" ++ encodeURIComponent user.name)

/-- Client descriptor for one inbound, mirroring the map body of
generateClientConfig in src/core/config-generator. The JS fallbacks
reality?.field || two-quotes yield the empty string when the reality block
or the list head is missing. -/
def clientConfigFor (user : User) (serverConfig : ServerConfig)
    (inbound : InboundConfig) : Except String ClientConfig := do
  let uri ← generateVlessUri user serverConfig inbound
  pure
    { userId := user.id
      protocol := inbound.protocol
      uri := uri
      manual :=
        { address := serverConfig.host
          port := inbound.port
          uuid := user.id
          flow := visionFlow
          security := "reality"
          sni := match inbound.reality with
            | Option.none => ""
            | Option.some r => r.serverNames.headD ""
          fingerprint := "chrome"
          publicKey := match inbound.reality with
            | Option.none => ""
            | Option.some r => r.publicKey
          shortId := match inbound.reality with
            | Option.none => ""
            | Option.some r => r.shortIds.headD "" } }

/-- Sequential map with exception propagation, as the JS array map inside
a throwing callback behaves. -/
def mapExcept {α β : Type} (f : α → Except String β) : List α → Except String (List β)
  | [] => Except.ok []
  | a :: as =>
    match f a with
    | Except.error e => Except.error e
    | Except.ok b =>
      match mapExcept f as with
      | Except.error e => Except.error e
      | Except.ok bs => Except.ok (b :: bs)

/-- Client-descriptor generator: one descriptor per inbound; a throw from
generateVlessUri on any inbound propagates. -/
def generateClientConfig (user : User) (serverConfig : ServerConfig) :
    Except String (List ClientConfig) :=
  mapExcept (clientConfigFor user serverConfig) serverConfig.inbounds

/-- Fresh random material consumed by one key generation, standing for the
KeyProvider collaborator (generateRealityKeyPair and generateShortIds of
src/utils/crypto). -/
structure Entropy where
  privateKey : String
  publicKey : String
  shortIds : List String
deriving DecidableEq, Repr

/-- Mirror of generateRealityConfig of src/core/config-generator: the
target defaults to the first DEFAULT_REALITY_TARGETS entry when dest is
absent or empty (the JS fallback dest two-bars default). -/
def generateRealityConfig (dest : Option String) (e : Entropy) : RealityConfig :=
  let target := match dest with
    | Option.none => "www.google.com"
    | Option.some d => if d = "" then "www.google.com" else d
  { dest := target
    serverNames := [target]
    privateKey := e.privateKey
    publicKey := e.publicKey
    shortIds := e.shortIds }

/-- Mirror of generateDefaultServerConfig of src/core/config-generator. -/
def generateDefaultServerConfig (host : String) (port : Nat) (e : Entropy) : ServerConfig :=
  { host := host
    inbounds :=
      [ { tag := "vless-reality"
          protocol := Protocol.vless
          listen := "0.0.0.0"
          port := port
          tlsType := TlsType.reality
          reality := Option.some (generateRealityConfig Option.none e) } ]
    dns := Option.some { servers := ["8.8.8.8", "1.1.1.1"], useSystemDns := false }
    logLevel := "info" }

/-- The in-memory state installed by the UserManager constructor before
any initialize or loadState call: an uninitialized manager. -/
def initialManagerState : ManagerState :=
  { version := 1
    server := { host := "", inbounds := [], dns := Option.none, logLevel := "info" }
    users := []
    clientConfigs := [] }

/-- Mirror of UserManager.initialize: when a persisted state exists it is
loaded as-is (loadState parses the stored document and reencodes the
stored ISO dates to the same timestamps), otherwise a fresh server config
is generated from the key material and the current state keeps its users
and descriptors. -/
def initManager (persisted : Option ManagerState) (current : ManagerState)
    (host : String) (port : Nat) (e : Entropy) : ManagerState :=
  match persisted with
  | Option.some st => st
  | Option.none => { current with server := generateDefaultServerConfig host port e }

/-- Options record of UserManager.addUser. -/
structure AddUserOptions where
  email : Option String := Option.none
  expiresAt : Option Nat := Option.none
  trafficLimit : Option Nat := Option.none
deriving DecidableEq, Repr

/-- The user record built by UserManager.addUser: enabled on creation,
zero used traffic, limit defaulting to 0 (unlimited) via the JS fallback. -/
def mkUser (name : String) (options : AddUserOptions) (freshId : String) (now : Nat) : User :=
  { id := freshId
    name := name
    email := options.email
    createdAt := now
    expiresAt := options.expiresAt
    enabled := true
    trafficLimit := options.trafficLimit.getD 0
    trafficUsed := 0 }

/-- Mirror of UserManager.addUser. The fresh UUID and the creation time
are passed explicitly. The duplicate-name check runs over the whole
roster before any mutation; on the non-duplicate path the user is pushed
before descriptors are generated, so a throw from generateClientConfig
leaves the pushed user in the returned state, exactly as the mutated
this.state survives the JS throw. -/
def addUser (state : ManagerState) (name : String) (options : AddUserOptions)
    (freshId : String) (now : Nat) :
    ManagerState × Except String (User × List ClientConfig) :=
  if state.users.any (fun u => u.name = name) then
    (state, Except.error ("User \"" ++ name ++ "\" already exists"))
  else
    let user := mkUser name options freshId now
    let pushed := { state with users := state.users ++ [user] }
    match generateClientConfig user pushed.server with
    | Except.error e => (pushed, Except.error e)
    | Except.ok configs =>
        ({ pushed with clientConfigs := pushed.clientConfigs ++ configs },
         Except.ok (user, configs))

/-- Lookup predicate used by removeUser, setUserEnabled and getUser:
name or id equality against the one query string. -/
def userMatches (nameOrId : String) (u : User) : Bool :=
  u.name = nameOrId || u.id = nameOrId

/-- First match of a predicate removed from a list, keeping the rest in
order: the findIndex plus splice pattern of UserManager.removeUser. -/
def findRemove (p : User → Bool) : List User → Option (User × List User)
  | [] => Option.none
  | u :: rest =>
    if p u then Option.some (u, rest)
    else match findRemove p rest with
      | Option.none => Option.none
      | Option.some (x, rest2) => Option.some (x, u :: rest2)

/-- Mirror of UserManager.removeUser: first name-or-id match is spliced
out and every cached descriptor with the removed id is filtered away;
a miss reports false and leaves the state alone. -/
def removeUser (state : ManagerState) (nameOrId : String) : ManagerState × Bool :=
  match findRemove (userMatches nameOrId) state.users with
  | Option.none => (state, false)
  | Option.some (user, rest) =>
      ({ state with
          users := rest
          clientConfigs := state.clientConfigs.filter (fun c => c.userId ≠ user.id) },
       true)

/-- In-place enabled-flag update of the first match, mirroring the find
plus mutation of UserManager.setUserEnabled. -/
def setFirstEnabled (p : User → Bool) (enabled : Bool) : List User → Option (List User)
  | [] => Option.none
  | u :: rest =>
    if p u then Option.some ({ u with enabled := enabled } :: rest)
    else (setFirstEnabled p enabled rest).map (fun r => u :: r)

/-- Mirror of UserManager.setUserEnabled. -/
def setUserEnabled (state : ManagerState) (nameOrId : String) (enabled : Bool) :
    ManagerState × Bool :=
  match setFirstEnabled (userMatches nameOrId) enabled state.users with
  | Option.none => (state, false)
  | Option.some users2 => ({ state with users := users2 }, true)

/-- Mirror of the POST /api/reset handler of src/server.ts: the server
config is rebuilt from the SERVER_HOST and SERVER_PORT environment (with
the same fallbacks as at startup) and fresh key material, and the users
array is reassigned to empty. No other state field is touched. -/
def resetServer (state : ManagerState) (envHost : Option String)
    (envPort : Option Nat) (e : Entropy) : ManagerState :=
  let host := match envHost with
    | Option.none => "0.0.0.0"
    | Option.some h => if h = "" then "0.0.0.0" else h
  let port := envPort.getD 443
  { state with
      server := generateDefaultServerConfig host port e
      users := [] }

/-- Every character of the string is serialized verbatim by
URLSearchParams. -/
def formSafe (s : String) : Bool :=
  s.data.all isFormUnreserved

theorem strData (a b : String) : (a ++ b).data = a.data ++ b.data := by
  cases a; cases b; rfl

theorem strExt {a b : String} (h : a.data = b.data) : a = b := by
  cases a; cases b; exact congrArg String.mk h

theorem strAssoc (a b c : String) : a ++ b ++ c = a ++ (b ++ c) := by
  apply strExt; simp [strData]

theorem encodeChars_of_singleton (f : Char → String) :
    ∀ l : List Char, (∀ c ∈ l, f c = String.singleton c) →
      encodeChars f l = String.mk l := by
  intro l
  induction l with
  | nil => intro _; rfl
  | cons c cs ih =>
      intro h
      have hc := h c (List.mem_cons_self c cs)
      have hcs := ih (fun d hd => h d (List.mem_cons_of_mem c hd))
      apply strExt
      simp [encodeChars, hc, hcs, strData, String.singleton]

theorem formEncodeChar_of_safe {c : Char} (h : isFormUnreserved c = true) :
    formEncodeChar c = String.singleton c := by
  simp [formEncodeChar, h]

theorem formEncode_of_safe {s : String} (h : formSafe s = true) :
    formEncode s = s := by
  have hall : ∀ c ∈ s.data, isFormUnreserved c = true := by
    simpa [formSafe, List.all_eq_true] using h
  have := encodeChars_of_singleton formEncodeChar s.data
    (fun c hc => formEncodeChar_of_safe (hall c hc))
  apply strExt
  rw [formEncode, this]

/-- Example user for concrete evaluations. -/
def uEx : User :=
  { id := "11111111-1111-4111-8111-111111111111"
    name := "alice"
    email := Option.none
    createdAt := 0
    expiresAt := Option.none
    enabled := true
    trafficLimit := 0
    trafficUsed := 0 }

/-- Example Reality material for concrete evaluations. -/
def rEx : RealityConfig :=
  { dest := "www.google.com"
    serverNames := ["www.google.com"]
    privateKey := "priv"
    publicKey := "PUBKEY-123_ab"
    shortIds := ["0123abcd"] }

/-- Example inbound for concrete evaluations. -/
def ibEx : InboundConfig :=
  { tag := "vless-reality"
    protocol := Protocol.vless
    listen := "0.0.0.0"
    port := 443
    tlsType := TlsType.reality
    reality := Option.some rEx }

/-- Example server config for concrete evaluations. -/
def scEx : ServerConfig :=
  { host := "203.0.113.5"
    inbounds := [ibEx]
    dns := Option.none
    logLevel := "info" }

/-- Example cached descriptor for concrete evaluations. -/
def ccEx : ClientConfig :=
  { userId := "11111111-1111-4111-8111-111111111111"
    protocol := Protocol.vless
    uri := "vless://unused"
    manual :=
      { address := "203.0.113.5", port := 443
        uuid := "11111111-1111-4111-8111-111111111111"
        flow := visionFlow, security := "reality", sni := "www.google.com"
        fingerprint := "chrome", publicKey := "PUBKEY-123_ab", shortId := "0123abcd" } }

/-- Example manager state with one user and one cached descriptor. -/
def stEx : ManagerState :=
  { version := 1
    server := scEx
    users := [uEx]
    clientConfigs := [ccEx] }

/-- Example fresh key material. -/
def entropyEx : Entropy :=
  { privateKey := "NEWPRIV", publicKey := "NEWPUB", shortIds := ["deadbeef"] }

/-- Users list of the compiled inbound built by toSbInbound. -/
theorem toSbInbound_users (users : List User) (ib : InboundConfig) :
    (toSbInbound users ib).users =
      (users.filter (fun u => u.enabled)).map toSbUser := by
  unfold toSbInbound
  split <;> rfl

theorem map_toSbInbound_users (users : List User) :
    ∀ l : List InboundConfig,
      (l.map (toSbInbound users)).map SbInbound.users =
        l.map (fun _ => (users.filter (fun u => u.enabled)).map toSbUser) := by
  intro l
  induction l with
  | nil => rfl
  | cons ib tl ih => simp [toSbInbound_users, ih]

/-- C1: for every server config and roster, each compiled inbound's user
list is exactly the enabled users, in roster order, each carrying the
user id as uuid, the name, and the fixed flow value xtls-rprx-vision;
disabled users are absent. -/
theorem compile_filters_disabled_users (serverConfig : ServerConfig) (users : List User) :
    (toSingboxConfig serverConfig users).inbounds.map SbInbound.users =
      serverConfig.inbounds.map (fun _ =>
        (users.filter (fun u => u.enabled)).map (fun u =>
          ({ uuid := u.id, name := u.name, flow := "xtls-rprx-vision" } : SbUser))) := by
  have h := map_toSbInbound_users users serverConfig.inbounds
  simpa [toSingboxConfig, toSbUser, visionFlow] using h

/-- C2 counterexample: resetting a state whose descriptor cache is
nonempty leaves the cache nonempty, so the claim that the cache is empty
after reset fails. -/
theorem reset_cache_counterexample :
    (resetServer stEx Option.none Option.none entropyEx).clientConfigs ≠ [] := by
  decide

/-- C2 amended: after the reset handler runs, the server config has been
rebuilt with the fresh keypair and fresh short ids and the user roster is
empty, but the client-descriptor cache is left exactly as it was, not
cleared. -/
theorem reset_regenerates_server (state : ManagerState) (envHost : Option String)
    (envPort : Option Nat) (e : Entropy) :
    (resetServer state envHost envPort e).users = [] ∧
    (resetServer state envHost envPort e).clientConfigs = state.clientConfigs ∧
    (resetServer state envHost envPort e).server.inbounds.map InboundConfig.reality =
      [Option.some
        { dest := "www.google.com"
          serverNames := ["www.google.com"]
          privateKey := e.privateKey
          publicKey := e.publicKey
          shortIds := e.shortIds }] := by
  refine ⟨rfl, rfl, rfl⟩

/-- C7: a second initManager call when persisted state exists loads that
state unchanged: the server (hence the Reality keys) and the roster are
those of the persisted state, no matter what key material the provider
would supply; in particular re-entry after a fresh first call returns the
first call's state with the first call's keys. -/
theorem init_idempotent (st cur cur2 : ManagerState) (host host2 : String)
    (port port2 : Nat) (e e2 : Entropy) :
    initManager (Option.some st) cur2 host2 port2 e2 = st ∧
    initManager (Option.some st) cur2 host2 port2 e2 =
      initManager (Option.some st) cur2 host2 port2 e ∧
    initManager
        (Option.some (initManager Option.none cur host port e)) cur2 host2 port2 e2 =
      { cur with server := generateDefaultServerConfig host port e } := by
  exact ⟨rfl, rfl, rfl⟩

/-- C8 counterexample: addUser on the uninitialized default manager state
succeeds outright (returning the new user and no descriptors), instead of
failing with a distinguished not-initialized condition. -/
theorem uninitialized_addUser_succeeds :
    (addUser initialManagerState "alice" {} "11111111-1111-4111-8111-111111111111" 0).2 =
      Except.ok
        ({ id := "11111111-1111-4111-8111-111111111111"
           name := "alice"
           email := Option.none
           createdAt := 0
           expiresAt := Option.none
           enabled := true
           trafficLimit := 0
           trafficUsed := 0 }, []) := by
  rfl

/-- C8 amended: no operation on the uninitialized manager raises a
distinguished not-initialized condition: addUser succeeds against the
default empty server config and produces no descriptors, while removeUser
and setUserEnabled merely report not-found and leave the state unchanged. -/
theorem uninitialized_ops_do_not_fail (name : String) (opts : AddUserOptions)
    (freshId : String) (now : Nat) (key : String) (b : Bool) :
    (addUser initialManagerState name opts freshId now).2 =
      Except.ok
        ({ id := freshId
           name := name
           email := opts.email
           createdAt := now
           expiresAt := opts.expiresAt
           enabled := true
           trafficLimit := opts.trafficLimit.getD 0
           trafficUsed := 0 }, []) ∧
    removeUser initialManagerState key = (initialManagerState, false) ∧
    setUserEnabled initialManagerState key b = (initialManagerState, false) := by
  exact ⟨rfl, rfl, rfl⟩

theorem encKey_type : formEncode "type" = "type" := rfl

theorem encVal_tcp : formEncode "tcp" = "tcp" := rfl

theorem encKey_security : formEncode "security" = "security" := rfl

theorem encVal_reality : formEncode "reality" = "reality" := rfl

theorem encKey_pbk : formEncode "pbk" = "pbk" := rfl

theorem encKey_fp : formEncode "fp" = "fp" := rfl

theorem encVal_chrome : formEncode "chrome" = "chrome" := rfl

theorem encKey_sni : formEncode "sni" = "sni" := rfl

theorem encKey_sid : formEncode "sid" = "sid" := rfl

theorem encKey_flow : formEncode "flow" = "flow" := rfl

theorem encVal_flow : formEncode visionFlow = visionFlow := rfl

theorem chunk1 (s : String) :
    "type" ++ ("=" ++ ("tcp" ++ ("&" ++ ("security" ++ ("=" ++ ("reality" ++ ("&" ++ ("pbk" ++ ("=" ++ s))))))))) =
      "type=tcp&security=reality&pbk=" ++ s := by
  simp only [← strAssoc]; rfl

theorem chunk2 (s : String) :
    "&" ++ ("fp" ++ ("=" ++ ("chrome" ++ ("&" ++ ("sni" ++ ("=" ++ s)))))) =
      "&fp=chrome&sni=" ++ s := by
  simp only [← strAssoc]; rfl

theorem chunk3 (s : String) :
    "&" ++ ("sid" ++ ("=" ++ s)) = "&sid=" ++ s := by
  simp only [← strAssoc]; rfl

theorem chunk4 : "&" ++ ("flow" ++ ("=" ++ visionFlow)) = "&flow=xtls-rprx-vision" := rfl

/-- Canonical shape of the URLSearchParams serialization used by
generateVlessUri, for values that the serializer keeps verbatim. -/
theorem serialize_canonical (pk sni sid : String) (hpk : formSafe pk = true)
    (hsni : formSafe sni = true) (hsid : formSafe sid = true) :
    serializePairs
      [("type", "tcp"), ("security", "reality"), ("pbk", pk), ("fp", "chrome"),
       ("sni", sni), ("sid", sid), ("flow", visionFlow)] =
    "type=tcp&security=reality&pbk=" ++ (pk ++ ("&fp=chrome&sni=" ++ (sni ++ ("&sid=" ++ (sid ++ "&flow=xtls-rprx-vision"))))) := by
  simp only [serializePairs]
  rw [formEncode_of_safe hpk, formEncode_of_safe hsni, formEncode_of_safe hsid,
    encKey_type, encVal_tcp, encKey_security, encVal_reality, encKey_pbk, encKey_fp,
    encVal_chrome, encKey_sni, encKey_sid, encKey_flow, encVal_flow]
  simp only [strAssoc]
  rw [chunk1, chunk2, chunk3, chunk4]

theorem headD_of_headQ {α : Type} {l : List α} {a : α} (d : α)
    (h : l.head? = Option.some a) : l.headD d = a := by
  cases l <;> simp_all

theorem chunkQ (s : String) :
    "?" ++ ("type=tcp&security=reality&pbk=" ++ s) = "?type=tcp&security=reality&pbk=" ++ s := by
  simp only [← strAssoc]; rfl

theorem chunkH (s : String) :
    "&flow=xtls-rprx-vision" ++ ("#" ++ s) = "&flow=xtls-rprx-vision#" ++ s := by
  simp only [← strAssoc]; rfl

/-- Exact string produced by generateVlessUri on a vless+reality inbound
whose first server name, first short id and public key are form-safe. -/
theorem vlessUri_canonical_aux (user : User) (serverConfig : ServerConfig)
    (inbound : InboundConfig) (r : RealityConfig) (sn0 sd0 : String)
    (hp : inbound.protocol = Protocol.vless) (ht : inbound.tlsType = TlsType.reality)
    (hr : inbound.reality = Option.some r)
    (hsn0 : r.serverNames.head? = Option.some sn0)
    (hsd0 : r.shortIds.head? = Option.some sd0)
    (hpk : formSafe r.publicKey = true)
    (hsn : formSafe sn0 = true) (hsd : formSafe sd0 = true) :
    generateVlessUri user serverConfig inbound =
      Except.ok ("vless://" ++ user.id ++ "@" ++ serverConfig.host ++ ":" ++
        toString inbound.port ++ "?type=tcp&security=reality&pbk=" ++ r.publicKey ++
        "&fp=chrome&sni=" ++ sn0 ++ "&sid=" ++ sd0 ++ "&flow=xtls-rprx-vision#" ++
        encodeURIComponent user.name) := by
  rw [generateVlessUri, if_neg (by simp [hp, ht])]
  simp only [hr]
  rw [headD_of_headQ _ hsn0, headD_of_headQ _ hsd0]
  rw [serialize_canonical r.publicKey sn0 sd0 hpk hsn hsd]
  simp only [strAssoc]
  rw [chunkQ, chunkH]

/-- C3: on a vless+reality inbound the generated URI is exactly the
canonical string vless://id@host:port?type=tcp&security=reality&pbk=
publicKey&fp=chrome&sni=serverNames0&sid=shortIds0&flow=xtls-rprx-vision
hash percent-encoded name, with the query parameters in that fixed order;
and the generator is a pure function, so a repeated call with the same
inputs yields the identical string. -/
theorem vless_uri_canonical (user : User) (serverConfig : ServerConfig)
    (inbound : InboundConfig) (r : RealityConfig) (sn0 sd0 : String)
    (hp : inbound.protocol = Protocol.vless) (ht : inbound.tlsType = TlsType.reality)
    (hr : inbound.reality = Option.some r)
    (hsn0 : r.serverNames.head? = Option.some sn0)
    (hsd0 : r.shortIds.head? = Option.some sd0)
    (hpk : formSafe r.publicKey = true)
    (hsn : formSafe sn0 = true) (hsd : formSafe sd0 = true) :
    generateVlessUri user serverConfig inbound =
      Except.ok ("vless://" ++ user.id ++ "@" ++ serverConfig.host ++ ":" ++
        toString inbound.port ++ "?type=tcp&security=reality&pbk=" ++ r.publicKey ++
        "&fp=chrome&sni=" ++ sn0 ++ "&sid=" ++ sd0 ++ "&flow=xtls-rprx-vision#" ++
        encodeURIComponent user.name) ∧
    generateVlessUri user serverConfig inbound =
      generateVlessUri user serverConfig inbound := by
  exact ⟨vlessUri_canonical_aux user serverConfig inbound r sn0 sd0
    hp ht hr hsn0 hsd0 hpk hsn hsd, rfl⟩

/-- C3 witness: the canonical form evaluated at a concrete user, server
and inbound. -/
theorem vless_uri_canonical_witness :
    generateVlessUri uEx scEx ibEx =
      Except.ok ("vless://" ++ uEx.id ++ "@" ++ scEx.host ++ ":" ++
        toString ibEx.port ++ "?type=tcp&security=reality&pbk=" ++ rEx.publicKey ++
        "&fp=chrome&sni=" ++ "www.google.com" ++ "&sid=" ++ "0123abcd" ++
        "&flow=xtls-rprx-vision#" ++ encodeURIComponent uEx.name) ∧
    generateVlessUri uEx scEx ibEx = generateVlessUri uEx scEx ibEx :=
  vless_uri_canonical uEx scEx ibEx rEx "www.google.com" "0123abcd"
    rfl rfl rfl rfl rfl (by decide) (by decide) (by decide)

/-- C4: generateVlessUri raises the descriptive unsupported-combination
error whenever the inbound protocol is not vless or the TLS type is not
reality, and it returns a URI only when the protocol is vless and the TLS
type is reality. -/
theorem vless_uri_unsupported (user : User) (serverConfig : ServerConfig)
    (inbound : InboundConfig) :
    (inbound.protocol ≠ Protocol.vless ∨ inbound.tlsType ≠ TlsType.reality →
      generateVlessUri user serverConfig inbound =
        Except.error "Only VLESS+Reality is supported") ∧
    (∀ out, generateVlessUri user serverConfig inbound = Except.ok out →
      inbound.protocol = Protocol.vless ∧ inbound.tlsType = TlsType.reality) := by
  constructor
  · intro h
    rw [generateVlessUri, if_pos h]
  · intro out h
    by_cases hc : inbound.protocol ≠ Protocol.vless ∨ inbound.tlsType ≠ TlsType.reality
    · rw [generateVlessUri, if_pos hc] at h
      exact absurd h (by simp)
    · push_neg at hc
      exact hc

/-- C4 witness: a vmess inbound is rejected with the descriptive error. -/
theorem vless_uri_unsupported_witness :
    ({ ibEx with protocol := Protocol.vmess }.protocol ≠ Protocol.vless ∨
      { ibEx with protocol := Protocol.vmess }.tlsType ≠ TlsType.reality) ∧
    generateVlessUri uEx scEx { ibEx with protocol := Protocol.vmess } =
      Except.error "Only VLESS+Reality is supported" :=
  ⟨Or.inl (by decide),
    (vless_uri_unsupported uEx scEx { ibEx with protocol := Protocol.vmess }).1
      (Or.inl (by decide))⟩

/-- C5: adding a user whose name collides with any roster entry fails
with the duplicate-user error and leaves the whole state untouched; a
call that returns ok has allocated the supplied fresh id to the new user
and appended it at the end of the roster, and a fresh id keeps the roster
ids pairwise distinct. -/
theorem addUser_duplicate_rejected (s : ManagerState) (name : String)
    (opts : AddUserOptions) (freshId : String) (now : Nat) :
    ((∃ u ∈ s.users, u.name = name) →
      addUser s name opts freshId now =
        (s, Except.error ("User \"" ++ name ++ "\" already exists"))) ∧
    (∀ u cfgs, (addUser s name opts freshId now).2 = Except.ok (u, cfgs) →
      u.id = freshId ∧
      (addUser s name opts freshId now).1.users = s.users ++ [u]) ∧
    (freshId ∉ s.users.map User.id → (s.users.map User.id).Nodup →
      ((addUser s name opts freshId now).1.users.map User.id).Nodup) := by
  refine ⟨?_, ?_, ?_⟩
  · rintro ⟨u, hu, hn⟩
    have hdup : s.users.any (fun v => v.name = name) = true :=
      List.any_eq_true.mpr ⟨u, hu, by simp [hn]⟩
    rw [addUser, if_pos hdup]
  · intro u cfgs h
    by_cases hdup : s.users.any (fun v => v.name = name) = true
    · rw [addUser, if_pos hdup] at h
      exact absurd h (by simp)
    · rw [addUser, if_neg hdup] at h ⊢
      cases hg : generateClientConfig (mkUser name opts freshId now) s.server with
      | error e =>
          simp only [hg] at h
          exact absurd h (by simp)
      | ok configs =>
          simp only [hg] at h ⊢
          have := h
          simp only [Except.ok.injEq, Prod.mk.injEq] at this
          obtain ⟨hu2, _⟩ := this
          subst hu2
          exact ⟨rfl, rfl⟩
  · intro hf hnd
    by_cases hdup : s.users.any (fun v => v.name = name) = true
    · rw [addUser, if_pos hdup]
      exact hnd
    · rw [addUser, if_neg hdup]
      cases hg : generateClientConfig (mkUser name opts freshId now) s.server with
      | error e =>
          simp only [hg]
          simp [mkUser, List.nodup_append, hnd, hf]
      | ok configs =>
          simp only [hg]
          simp [mkUser, List.nodup_append, hnd, hf]

/-- C5 witness: adding a second alice to the example state fails with
the duplicate error and returns the state unchanged. -/
theorem addUser_duplicate_rejected_witness :
    (∃ u ∈ stEx.users, u.name = "alice") ∧
    addUser stEx "alice" {} "ffffffff-0000-4000-8000-000000000000" 7 =
      (stEx, Except.error "User \"alice\" already exists") :=
  ⟨⟨uEx, by decide, by decide⟩,
    (addUser_duplicate_rejected stEx "alice" {} "ffffffff-0000-4000-8000-000000000000" 7).1
      ⟨uEx, by decide, by decide⟩⟩

theorem findRemove_none (p : User → Bool) :
    ∀ us : List User, (∀ u ∈ us, p u = false) → findRemove p us = Option.none := by
  intro us
  induction us with
  | nil => intro _; rfl
  | cons u tl ih =>
      intro h
      have hu := h u (List.mem_cons_self u tl)
      have htl := ih (fun v hv => h v (List.mem_cons_of_mem u hv))
      simp [findRemove, hu, htl]

theorem findRemove_mem (p : User → Bool) :
    ∀ {us : List User} {x : User} {rest : List User},
      findRemove p us = Option.some (x, rest) → x ∈ us := by
  intro us
  induction us with
  | nil => intro x rest h; exact absurd h (by simp [findRemove])
  | cons u tl ih =>
      intro x rest h
      by_cases hu : p u = true
      · simp only [findRemove, if_pos hu] at h
        obtain ⟨hx, _⟩ := Prod.mk.injEq .. ▸ (Option.some.injEq .. ▸ h)
        exact hx ▸ List.mem_cons_self u tl
      · simp only [findRemove, if_neg hu] at h
        cases hfr : findRemove p tl with
        | none => rw [hfr] at h; exact absurd h (by simp)
        | some pr =>
            rw [hfr] at h
            cases pr with
            | mk y rest2 =>
                simp only [Option.some.injEq, Prod.mk.injEq] at h
                obtain ⟨hy, _⟩ := h
                exact List.mem_cons_of_mem u (hy ▸ ih hfr)

theorem findRemove_of_find (p : User → Bool) :
    ∀ {us : List User} {x : User}, us.find? p = Option.some x →
      ∃ rest, findRemove p us = Option.some (x, rest) := by
  intro us
  induction us with
  | nil => intro x h; exact absurd h (by simp)
  | cons u tl ih =>
      intro x h
      by_cases hu : p u = true
      · rw [List.find?_cons_of_pos _ hu] at h
        obtain rfl : u = x := by simpa using h
        exact ⟨tl, by simp [findRemove, hu]⟩
      · rw [List.find?_cons_of_neg _ (by simpa using hu)] at h
        obtain ⟨rest, hrest⟩ := ih h
        refine ⟨u :: rest, ?_⟩
        simp [findRemove, hu, hrest]

theorem findRemove_not_mem (p : User → Bool) :
    ∀ {us : List User} {x : User} {rest : List User},
      (us.map User.id).Nodup → findRemove p us = Option.some (x, rest) → x ∉ rest := by
  intro us
  induction us with
  | nil => intro x rest _ h; exact absurd h (by simp [findRemove])
  | cons u tl ih =>
      intro x rest hnd h
      have hnd2 : u.id ∉ tl.map User.id ∧ (tl.map User.id).Nodup := by
        simpa using hnd
      by_cases hu : p u = true
      · simp only [findRemove, if_pos hu, Option.some.injEq, Prod.mk.injEq] at h
        obtain ⟨hx, hrest⟩ := h
        subst hx; subst hrest
        intro hmem
        exact hnd2.1 (List.mem_map_of_mem User.id hmem)
      · simp only [findRemove, if_neg hu] at h
        cases hfr : findRemove p tl with
        | none => rw [hfr] at h; exact absurd h (by simp)
        | some pr =>
            rw [hfr] at h
            cases pr with
            | mk y rest2 =>
                simp only [Option.some.injEq, Prod.mk.injEq] at h
                obtain ⟨hy, hrest⟩ := h
                intro hmem
                rw [← hrest] at hmem
                rcases List.mem_cons.mp hmem with hxu | hxr
                · have hxtl : x ∈ tl := hy ▸ findRemove_mem p hfr
                  exact hnd2.1 (hxu ▸ List.mem_map_of_mem User.id hxtl)
                · exact (ih hnd2.2 hfr) (hy.symm ▸ hxr)

/-- C6: when some user matches the query by name or id, removeUser
reports success, the first matching user is gone from the roster (given
the roster ids are pairwise distinct), and no cached descriptor carrying
the removed id survives; when nothing matches, it reports not-found and
returns the state unchanged. -/
theorem removeUser_cascades (s : ManagerState) (key : String) :
    ((∀ u ∈ s.users, userMatches key u = false) → removeUser s key = (s, false)) ∧
    (∀ x, s.users.find? (userMatches key) = Option.some x →
      (s.users.map User.id).Nodup →
        (removeUser s key).2 = true ∧
        x ∉ (removeUser s key).1.users ∧
        ∀ c ∈ (removeUser s key).1.clientConfigs, c.userId ≠ x.id) := by
  constructor
  · intro h
    rw [removeUser, findRemove_none _ _ h]
  · intro x hfind hnd
    obtain ⟨rest, hfr⟩ := findRemove_of_find (userMatches key) hfind
    rw [removeUser, hfr]
    refine ⟨rfl, findRemove_not_mem _ hnd hfr, ?_⟩
    intro c hc
    have := List.mem_filter.mp hc
    simpa using this.2

/-- C6 witness: removing alice from the example state succeeds, drops
her from the roster, and empties the descriptor cache of her entries. -/
theorem removeUser_cascades_witness :
    (removeUser stEx "alice").2 = true ∧ uEx ∉ (removeUser stEx "alice").1.users := by
  have h := (removeUser_cascades stEx "alice").2 uEx (by decide) (by decide)
  exact ⟨h.1, h.2.1⟩

theorem setFirstEnabled_none (p : User → Bool) (b : Bool) :
    ∀ us : List User, (∀ u ∈ us, p u = false) →
      setFirstEnabled p b us = Option.none := by
  intro us
  induction us with
  | nil => intro _; rfl
  | cons u tl ih =>
      intro h
      have hu := h u (List.mem_cons_self u tl)
      have htl := ih (fun v hv => h v (List.mem_cons_of_mem u hv))
      simp [setFirstEnabled, hu, htl]

theorem setFirstEnabled_split (p : User → Bool) (b : Bool) :
    ∀ (l1 : List User) (u : User) (l2 : List User), p u = true →
      (∀ w ∈ l1, p w = false) →
      setFirstEnabled p b (l1 ++ u :: l2) =
        Option.some (l1 ++ { u with enabled := b } :: l2) := by
  intro l1
  induction l1 with
  | nil =>
      intro u l2 hu _
      simp [setFirstEnabled, hu]
  | cons w tl ih =>
      intro u l2 hu h
      have hw := h w (List.mem_cons_self w tl)
      have htl := ih u l2 hu (fun v hv => h v (List.mem_cons_of_mem w hv))
      simp [setFirstEnabled, hw, htl]

/-- C10: setUserEnabled on a matching user flips exactly that user's
enabled flag in place, preserving the roster's length and order, every
other field of the user, every other user, the server config, and the
descriptor cache; on a miss it returns false and the state unchanged. -/
theorem setUserEnabled_frame (s : ManagerState) (key : String) (b : Bool) :
    ((∀ u ∈ s.users, userMatches key u = false) →
      setUserEnabled s key b = (s, false)) ∧
    (∀ l1 u l2, s.users = l1 ++ u :: l2 → userMatches key u = true →
      (∀ w ∈ l1, userMatches key w = false) →
      setUserEnabled s key b =
        ({ s with users := l1 ++ { u with enabled := b } :: l2 }, true)) := by
  constructor
  · intro h
    rw [setUserEnabled, setFirstEnabled_none _ _ _ h]
  · intro l1 u l2 hsplit hu hl1
    rw [setUserEnabled, hsplit, setFirstEnabled_split _ _ l1 u l2 hu hl1]

/-- C10 witness: disabling alice in the example state only flips her
enabled flag and leaves everything else identical. -/
theorem setUserEnabled_frame_witness :
    setUserEnabled stEx "alice" false =
      ({ stEx with users := [{ uEx with enabled := false }] }, true) :=
  (setUserEnabled_frame stEx "alice" false).2 [] uEx [] rfl (by decide)
    (by intro w hw; exact absurd hw (by simp))

/-- Well-formedness of a vless+reality inbound as the data model demands:
a reality block with nonempty serverNames and shortIds whose first
entries and public key survive URLSearchParams serialization verbatim. -/
def vlessRealityWellFormed (ib : InboundConfig) : Prop :=
  ib.protocol = Protocol.vless ∧ ib.tlsType = TlsType.reality ∧
  ∃ r sn0 sd0, ib.reality = Option.some r ∧
    r.serverNames.head? = Option.some sn0 ∧
    r.shortIds.head? = Option.some sd0 ∧
    formSafe r.publicKey = true ∧ formSafe sn0 = true ∧ formSafe sd0 = true

/-- Spec-side mirror relation for C9: the descriptor's uri is exactly the
canonical URI instantiated at the values stored in its own manual map, so
the two representations agree field by field. -/
def manualMirrorsUri (user : User) (c : ClientConfig) : Prop :=
  c.uri = "vless://" ++ c.manual.uuid ++ "@" ++ c.manual.address ++ ":" ++
    toString c.manual.port ++ "?type=tcp&security=reality&pbk=" ++ c.manual.publicKey ++
    "&fp=chrome&sni=" ++ c.manual.sni ++ "&sid=" ++ c.manual.shortId ++
    "&flow=xtls-rprx-vision#" ++ encodeURIComponent user.name

/-- Canonical descriptor shape shared by the uri and the manual map. -/
def canonicalClientConfig (user : User) (protocol : Protocol) (host : String)
    (port : Nat) (pk sn0 sd0 : String) : ClientConfig :=
  { userId := user.id
    protocol := protocol
    uri := "vless://" ++ user.id ++ "@" ++ host ++ ":" ++ toString port ++
      "?type=tcp&security=reality&pbk=" ++ pk ++ "&fp=chrome&sni=" ++ sn0 ++
      "&sid=" ++ sd0 ++ "&flow=xtls-rprx-vision#" ++ encodeURIComponent user.name
    manual :=
      { address := host
        port := port
        uuid := user.id
        flow := visionFlow
        security := "reality"
        sni := sn0
        fingerprint := "chrome"
        publicKey := pk
        shortId := sd0 } }

/-- Descriptor produced by clientConfigFor on a well-formed inbound. -/
theorem clientConfigFor_canonical (user : User) (serverConfig : ServerConfig)
    (inbound : InboundConfig) (r : RealityConfig) (sn0 sd0 : String)
    (hp : inbound.protocol = Protocol.vless) (ht : inbound.tlsType = TlsType.reality)
    (hr : inbound.reality = Option.some r)
    (hsn0 : r.serverNames.head? = Option.some sn0)
    (hsd0 : r.shortIds.head? = Option.some sd0)
    (hpk : formSafe r.publicKey = true)
    (hsn : formSafe sn0 = true) (hsd : formSafe sd0 = true) :
    clientConfigFor user serverConfig inbound =
      Except.ok (canonicalClientConfig user inbound.protocol serverConfig.host
        inbound.port r.publicKey sn0 sd0) := by
  rw [clientConfigFor]
  rw [vlessUri_canonical_aux user serverConfig inbound r sn0 sd0
    hp ht hr hsn0 hsd0 hpk hsn hsd]
  simp only [hr]
  rw [headD_of_headQ _ hsn0, headD_of_headQ _ hsd0]
  rfl

/-- mapExcept over well-formed inbounds returns one canonical descriptor
per inbound. -/
theorem mapExcept_clientConfig (user : User) (serverConfig : ServerConfig) :
    ∀ l : List InboundConfig, (∀ ib ∈ l, vlessRealityWellFormed ib) →
      ∃ cfgs, mapExcept (clientConfigFor user serverConfig) l = Except.ok cfgs ∧
        cfgs.length = l.length ∧
        ∀ c ∈ cfgs, c.userId = user.id ∧ c.manual.uuid = user.id ∧
          c.manual.address = serverConfig.host ∧ c.manual.flow = visionFlow ∧
          c.manual.security = "reality" ∧ c.manual.fingerprint = "chrome" ∧
          manualMirrorsUri user c := by
  intro l
  induction l with
  | nil =>
      intro _
      exact ⟨[], rfl, rfl, by simp⟩
  | cons ib tl ih =>
      intro h
      obtain ⟨hp, ht, r, sn0, sd0, hr, hsn0, hsd0, hpk, hsn, hsd⟩ :=
        h ib (List.mem_cons_self ib tl)
      obtain ⟨cfgs, hok, hlen, hall⟩ := ih (fun x hx => h x (List.mem_cons_of_mem ib hx))
      have hc := clientConfigFor_canonical user serverConfig ib r sn0 sd0
        hp ht hr hsn0 hsd0 hpk hsn hsd
      refine ⟨canonicalClientConfig user ib.protocol serverConfig.host
        ib.port r.publicKey sn0 sd0 :: cfgs, ?_, ?_, ?_⟩
      · rw [mapExcept, hc, hok]
      · simpa using congrArg Nat.succ hlen
      · intro c hc2
        rcases List.mem_cons.mp hc2 with hhead | htail
        · subst hhead
          exact ⟨rfl, rfl, rfl, rfl, rfl, rfl, rfl⟩
        · exact hall c htail

/-- C9: on a server whose inbounds are all well-formed vless+reality
endpoints, generateClientConfig returns exactly one descriptor per
inbound, each descriptor belongs to the user, and each descriptor's uri
is precisely the canonical URI rebuilt from the values of its own manual
map (address, port, uuid, publicKey, sni, shortId and the fixed flow,
security and fingerprint), so the two representations never diverge. -/
theorem client_config_manual_matches_uri (user : User) (serverConfig : ServerConfig)
    (h : ∀ ib ∈ serverConfig.inbounds, vlessRealityWellFormed ib) :
    ∃ cfgs, generateClientConfig user serverConfig = Except.ok cfgs ∧
      cfgs.length = serverConfig.inbounds.length ∧
      ∀ c ∈ cfgs, c.userId = user.id ∧ c.manual.uuid = user.id ∧
        c.manual.address = serverConfig.host ∧ c.manual.flow = visionFlow ∧
        c.manual.security = "reality" ∧ c.manual.fingerprint = "chrome" ∧
        manualMirrorsUri user c :=
  mapExcept_clientConfig user serverConfig serverConfig.inbounds h

/-- C9 witness: descriptor generation succeeds on the concrete example
server and yields as many descriptors as inbounds. -/
theorem client_config_manual_matches_uri_witness :
    (generateClientConfig uEx scEx).isOk = true := by
  have h := client_config_manual_matches_uri uEx scEx (by
    intro ib hib
    have : ib = ibEx := by simpa [scEx] using hib
    subst this
    exact ⟨rfl, rfl, rEx, "www.google.com", "0123abcd", rfl, rfl, rfl,
      by decide, by decide, by decide⟩)
  obtain ⟨cfgs, hok, _, _⟩ := h
  rw [generateClientConfig] at hok
  rw [generateClientConfig, hok]
  rfl

end Singbox
